import Mathlib

/-!
Verification of the attribute-tree codec of the netlink serialization
examples (tea_coffee, pingpong, conntrack).

The development shallowly embeds the three protocol drivers together with
the parts of the `netlink_packet_core` collaborator library they use
(the `Nla` trait with its default `buffer_len`/`emit`, the `NlaBuffer`
accessors with `new_checked`, the `NlasIterator`, and the scalar/string
primitives `parse_u8`/`parse_u16`/`parse_u32`/`parse_string`/`parse_ip`/
`emit_u16`/`emit_u32`).  Machine integers are `Nat` with explicit
reductions modulo 2^8 / 2^16 / 2^32 where the code truncates; byte
buffers are `List Nat`; native byte order is little-endian (the order of
the captured reference packets).  Rust `String` values are modelled as
their UTF-8 byte lists.

A computation result distinguishes a returned `DecodeError` from a Rust
panic (`unwrap` on an error, `copy_from_slice` with mismatched lengths,
out-of-bounds indexing): `DRes.err` models `Err(DecodeError)`, `DRes.panic`
models an actual panic.
-/

/-- Result of a fallible decode step: success, a returned decode error
(with its message), or a Rust panic. -/
inductive DRes (α : Type) where
  | ok : α → DRes α
  | err : String → DRes α
  | panic : DRes α
  deriving DecidableEq, Repr

/-- Whether a result is a returned (catchable) decode error. -/
def DRes.isErr : DRes α → Bool
  | .err _ => true
  | _ => false

/-- Whether a result is a success. -/
def DRes.isOk : DRes α → Bool
  | .ok _ => true
  | _ => false

/-- 4-byte alignment used throughout netlink: `(len + 3) & !3`. -/
def align4 (n : Nat) : Nat := (n + 3) / 4 * 4

/-- The padding the `Nla::buffer_len` default computes:
`(4 - value_len % 4) % 4`. -/
def pad4 (n : Nat) : Nat := (4 - n % 4) % 4

/-- Little-endian (native on the reference platform) encoding of a `u16`. -/
def u16le (n : Nat) : List Nat := [n % 256, n / 256 % 256]

/-- Little-endian encoding of a `u32` (`emit_u32` / `to_ne_bytes`). -/
def u32le (n : Nat) : List Nat :=
  [n % 256, n / 256 % 256, n / 65536 % 256, n / 16777216 % 256]

/-- Little-endian read of a `u16` from two bytes. -/
def readU16 (b0 b1 : Nat) : Nat := b0 + 256 * b1

/-- `parse_u8`: the payload must be exactly one byte. -/
def parse_u8 (payload : List Nat) : DRes Nat :=
  match payload with
  | [b] => .ok b
  | _ => .err "invalid u8 payload length"

/-- `parse_u16`: the payload must be exactly two bytes, native endian. -/
def parse_u16 (payload : List Nat) : DRes Nat :=
  match payload with
  | [b0, b1] => .ok (b0 + 256 * b1)
  | _ => .err "invalid u16 payload length"

/-- `parse_u32`: the payload must be exactly four bytes, native endian. -/
def parse_u32 (payload : List Nat) : DRes Nat :=
  match payload with
  | [b0, b1, b2, b3] => .ok (b0 + 256 * b1 + 65536 * b2 + 16777216 * b3)
  | _ => .err "invalid u32 payload length"

/-- Bytes of `payload` strictly before its first null byte, or the whole
payload when it holds no null: models
`payload.iter().position(|&b| b == 0).map(|p| &payload[..p]).unwrap_or(payload)`. -/
def nullPrefix : List Nat → List Nat
  | [] => []
  | b :: r => if b = 0 then [] else b :: nullPrefix r

/-- Whether a continuation byte of a UTF-8 sequence is in `0x80..=0xBF`. -/
def utf8Cont (b : Nat) : Bool := 128 ≤ b && b ≤ 191

/-- UTF-8 validity of a byte list (the check `String::from_utf8` performs,
rejecting overlong forms, surrogates and values beyond U+10FFFF). -/
def validUtf8 : List Nat → Bool
  | [] => true
  | b :: rest =>
    if b ≤ 127 then validUtf8 rest
    else if 194 ≤ b && b ≤ 223 then
      match rest with
      | c1 :: r => utf8Cont c1 && validUtf8 r
      | _ => false
    else if b = 224 then
      match rest with
      | c1 :: c2 :: r => (160 ≤ c1 && c1 ≤ 191) && utf8Cont c2 && validUtf8 r
      | _ => false
    else if (225 ≤ b && b ≤ 236) || b = 238 || b = 239 then
      match rest with
      | c1 :: c2 :: r => utf8Cont c1 && utf8Cont c2 && validUtf8 r
      | _ => false
    else if b = 237 then
      match rest with
      | c1 :: c2 :: r => (128 ≤ c1 && c1 ≤ 159) && utf8Cont c2 && validUtf8 r
      | _ => false
    else if b = 240 then
      match rest with
      | c1 :: c2 :: c3 :: r =>
        (144 ≤ c1 && c1 ≤ 191) && utf8Cont c2 && utf8Cont c3 && validUtf8 r
      | _ => false
    else if 241 ≤ b && b ≤ 243 then
      match rest with
      | c1 :: c2 :: c3 :: r =>
        utf8Cont c1 && utf8Cont c2 && utf8Cont c3 && validUtf8 r
      | _ => false
    else if b = 244 then
      match rest with
      | c1 :: c2 :: c3 :: r =>
        (128 ≤ c1 && c1 ≤ 143) && utf8Cont c2 && utf8Cont c3 && validUtf8 r
      | _ => false
    else false

/-- `parse_string`: truncate at the first null byte, then validate UTF-8
(`String::from_utf8`); the decoded string is modelled by its byte list. -/
def parse_string (payload : List Nat) : DRes (List Nat) :=
  if validUtf8 (nullPrefix payload) then .ok (nullPrefix payload)
  else .err "invalid string payload: not valid utf-8"

/-- An IP address: 4 octets (V4) or 16 octets (V6). -/
inductive IpAddr where
  | v4 : List Nat → IpAddr
  | v6 : List Nat → IpAddr
  deriving DecidableEq, Repr

/-- `parse_ip`: dispatch on the payload length, 4 → V4, 16 → V6. -/
def parse_ip (payload : List Nat) : DRes IpAddr :=
  if payload.length = 4 then .ok (.v4 payload)
  else if payload.length = 16 then .ok (.v6 payload)
  else .err "invalid ip payload length"

/-- `emit_ip`: write the octets of the address. -/
def emit_ip : IpAddr → List Nat
  | .v4 o => o
  | .v6 o => o

/-! ## The `Nla` trait and the NLA buffer layout

`NlaImpl α` packages the five trait members a protocol level implements
(`value_len`, `kind`, `is_nested`, `emit_value`, and its `Parseable`
instance, which reads the record's masked kind and value slice).
The generic record/list emitters and the `NlasIterator`-driven list
parser below are the library's default implementations. -/

structure NlaImpl (α : Type) where
  value_len : α → Nat
  kind : α → Nat
  is_nested : α → Bool
  emit_value : α → List Nat
  parse : Nat → List Nat → DRes α

/-- `NLA_F_NESTED`, the top bit of the wire kind field. -/
def NLA_F_NESTED : Nat := 32768

/-- `NLA_TYPE_MASK` keeps the low 14 bits of the kind field. -/
def NLA_TYPE_MASK : Nat := 16383

/-- Default `Nla::buffer_len`: `value_len + (4 - value_len % 4) % 4 + 4`. -/
def nlaBufferLen (I : NlaImpl α) (a : α) : Nat :=
  I.value_len a + pad4 (I.value_len a) + 4

/-- The wire kind field the default `Nla::emit` writes: the kind, with
`NLA_F_NESTED` or-ed in when `is_nested()` holds. -/
def nlaWireKind (I : NlaImpl α) (a : α) : Nat :=
  if I.is_nested a then I.kind a ||| NLA_F_NESTED else I.kind a

/-- Default `Nla::emit`: length field (`value_len + 4`, as u16), kind
field, value bytes, zero fill to the next 4-byte boundary. -/
def nlaEmit (I : NlaImpl α) (a : α) : List Nat :=
  u16le (I.value_len a + 4) ++ u16le (nlaWireKind I a) ++
    I.emit_value a ++ List.replicate (pad4 (I.value_len a)) 0

/-- `Emitable for &[T: Nla]`: concatenate the records in order. -/
def nlasEmit (I : NlaImpl α) : List α → List Nat
  | [] => []
  | a :: r => nlaEmit I a ++ nlasEmit I r

/-- `Emitable::buffer_len for &[T: Nla]`: sum of the records' lengths. -/
def nlasBufferLen (I : NlaImpl α) : List α → Nat
  | [] => 0
  | a :: r => nlaBufferLen I a + nlasBufferLen I r

/-- `NlaBuffer::length()`: the u16 at offset 0. -/
def nlaLength (b : List Nat) : Nat := readU16 (b.getD 0 0) (b.getD 1 0)

/-- The raw u16 kind field at offset 2 (flags included). -/
def nlaKindField (b : List Nat) : Nat := readU16 (b.getD 2 0) (b.getD 3 0)

/-- `NlaBuffer::kind()`: the kind field masked with `NLA_TYPE_MASK`. -/
def nlaKind (b : List Nat) : Nat := nlaKindField b % 16384

/-- `NlaBuffer::nested_flag()`: bit 15 of the kind field. -/
def nlaNestedFlag (b : List Nat) : Bool := nlaKindField b / 32768 % 2 = 1

/-- `NlaBuffer::value()`: bytes 4 up to the declared length. -/
def nlaValue (b : List Nat) : List Nat := (b.drop 4).take (nlaLength b - 4)

/-- The check `NlaBuffer::new_checked` performs: at least a 4-byte header,
a declared length of at least 4 that does not overrun the buffer. -/
def nlaCheck (b : List Nat) : Bool :=
  4 ≤ b.length && nlaLength b ≤ b.length && 4 ≤ nlaLength b

/-- The `NlasIterator` loop every deserializer drives: while bytes remain,
check the record at the cursor, parse it, and advance by the aligned
declared length; the first error or panic aborts the whole parse. -/
def parseNlas (I : NlaImpl α) (b : List Nat) : DRes (List α) :=
  if b.length = 0 then .ok []
  else if h : 4 ≤ b.length ∧ nlaLength b ≤ b.length ∧ 4 ≤ nlaLength b then
    match I.parse (nlaKind b) (nlaValue b) with
    | .ok a =>
      match parseNlas I (b.drop (align4 (nlaLength b))) with
      | .ok rest => .ok (a :: rest)
      | .err m => .err m
      | .panic => .panic
    | .err m => .err m
    | .panic => .panic
  else .err "malformed nla record"
  termination_by b.length
  decreasing_by
    simp [List.length_drop]
    have h4 : 4 ≤ nlaLength b := h.2.2
    have : nlaLength b ≤ align4 (nlaLength b) := by
      unfold align4; omega
    omega

/-! ## The tea/coffee beverage protocol (`tea_coffee.rs`) -/

namespace TeaCoffee

def TEA_MESSAGE_TYPE : Nat := 0x13
def COFFEE_MESSAGE_TYPE : Nat := 0x14

inductive BvgGenFamily where
  | Hot
  | Cold
  deriving DecidableEq, Repr

/-- `BvgGenFamily as u8` (`#[repr(u8)]` discriminants). -/
def BvgGenFamily.toU8 : BvgGenFamily → Nat
  | .Hot => 2
  | .Cold => 10

/-- `TryFrom<u8> for BvgGenFamily`; the error carries the invalid value
(`BvgParseError { invalid_value }`). -/
def BvgGenFamily.tryFrom (v : Nat) : Except Nat BvgGenFamily :=
  match v with
  | 2 => .ok .Hot
  | 10 => .ok .Cold
  | unknown_value => .error unknown_value

def BVG_GEN_MSG_LEN : Nat := 4

structure BvgGenMsg where
  family : BvgGenFamily
  version : Nat
  resource_id : Nat
  deriving DecidableEq, Repr

/-- `Emitable for BvgGenMsg`: family byte, version byte, u16 resource id. -/
def BvgGenMsg.emit (m : BvgGenMsg) : List Nat :=
  [m.family.toU8, m.version % 256] ++ u16le m.resource_id

/-- `Parseable for BvgGenMsg`. The source converts the raw family byte
with `.try_into().unwrap()`: an unrecognized family byte is a panic
(`DRes.panic`), not a returned error. -/
def BvgGenMsg.parse (b : List Nat) : DRes BvgGenMsg :=
  match BvgGenFamily.tryFrom (b.getD 0 0) with
  | .ok family => .ok ⟨family, b.getD 1 0, readU16 (b.getD 2 0) (b.getD 3 0)⟩
  | .error _ => .panic

def BVG_ATTR_CAFFEINE_CONTENT : Nat := 1
def BVG_ATTR_HOTNESS : Nat := 2
def BVG_ATTR_PERSON_NAME : Nat := 3

inductive BeverageAttribute where
  | CaffeineContent : Nat → BeverageAttribute
  | Hotness : Nat → BeverageAttribute
  | PersonName : List Nat → BeverageAttribute
  deriving DecidableEq, Repr

def BeverageAttribute.value_len : BeverageAttribute → Nat
  | .CaffeineContent _ | .Hotness _ => 4
  | .PersonName s => s.length + 1

def BeverageAttribute.kind : BeverageAttribute → Nat
  | .CaffeineContent _ => BVG_ATTR_CAFFEINE_CONTENT
  | .Hotness _ => BVG_ATTR_HOTNESS
  | .PersonName _ => BVG_ATTR_PERSON_NAME

/-- `emit_value`: `emit_u32` for the scalars; the string bytes followed by
one null terminator for `PersonName`. -/
def BeverageAttribute.emit_value : BeverageAttribute → List Nat
  | .CaffeineContent v | .Hotness v => u32le v
  | .PersonName s => s ++ [0]

/-- `Parseable<NlaBuffer> for BeverageAttribute`, dispatching on the
masked kind; unknown kinds are a returned `DecodeError`. -/
def BeverageAttribute.parse (kind : Nat) (payload : List Nat) :
    DRes BeverageAttribute :=
  if kind = BVG_ATTR_CAFFEINE_CONTENT then
    match parse_u32 payload with
    | .ok v => .ok (.CaffeineContent v)
    | .err m => .err m
    | .panic => .panic
  else if kind = BVG_ATTR_HOTNESS then
    match parse_u32 payload with
    | .ok v => .ok (.Hotness v)
    | .err m => .err m
    | .panic => .panic
  else if kind = BVG_ATTR_PERSON_NAME then
    match parse_string payload with
    | .ok s => .ok (.PersonName s)
    | .err m => .err m
    | .panic => .panic
  else .err "Unknown NLA kind for BeverageAttribute"

/-- The `Nla` implementation of `BeverageAttribute` (`is_nested` is the
trait default, `false`). -/
def BevNla : NlaImpl BeverageAttribute :=
  ⟨BeverageAttribute.value_len, BeverageAttribute.kind, fun _ => false,
   BeverageAttribute.emit_value, BeverageAttribute.parse⟩

inductive BeverageMessage where
  | Tea : BvgGenMsg → List BeverageAttribute → BeverageMessage
  | Coffee : BvgGenMsg → List BeverageAttribute → BeverageMessage
  deriving DecidableEq, Repr

def BeverageMessage.message_type : BeverageMessage → Nat
  | .Tea _ _ => TEA_MESSAGE_TYPE
  | .Coffee _ _ => COFFEE_MESSAGE_TYPE

def BeverageMessage.buffer_len : BeverageMessage → Nat
  | .Tea _ nlas | .Coffee _ nlas => BVG_GEN_MSG_LEN + nlasBufferLen BevNla nlas

/-- `NetlinkSerializable::serialize`: header bytes, then the attribute
records contiguously. -/
def BeverageMessage.serialize : BeverageMessage → List Nat
  | .Tea header nlas | .Coffee header nlas =>
    header.emit ++ nlasEmit BevNla nlas

/-- `NetlinkDeserializable::deserialize`, given the outer header's
`message_type` and the payload bytes. -/
def BeverageMessage.deserialize (message_type : Nat) (payload : List Nat) :
    DRes BeverageMessage :=
  if payload.length < BVG_GEN_MSG_LEN then
    .err "Payload is too short for BvgGenMsg header"
  else
    match BvgGenMsg.parse (payload.take BVG_GEN_MSG_LEN) with
    | .err m => .err m
    | .panic => .panic
    | .ok gen_header =>
      match parseNlas BevNla (payload.drop BVG_GEN_MSG_LEN) with
      | .err m => .err m
      | .panic => .panic
      | .ok nlas =>
        if message_type = TEA_MESSAGE_TYPE then .ok (.Tea gen_header nlas)
        else if message_type = COFFEE_MESSAGE_TYPE then
          .ok (.Coffee gen_header nlas)
        else .err "Unknown message type for Beverage protocol"

end TeaCoffee

/-! ## The ping-pong protocol (`pingpong.rs`) -/

namespace PingPong

def PING_MESSAGE : Nat := 18
def PONG_MESSAGE : Nat := 20

def PING_PONG_ATTR_MSG : Nat := 1
def PING_PONG_ATTR_COOKIE : Nat := 2

inductive PingPongAttribute where
  | Message : List Nat → PingPongAttribute
  | Cookie : Nat → PingPongAttribute
  deriving DecidableEq, Repr

def PingPongAttribute.value_len : PingPongAttribute → Nat
  | .Message s => s.length + 1
  | .Cookie _ => 4

def PingPongAttribute.kind : PingPongAttribute → Nat
  | .Message _ => PING_PONG_ATTR_MSG
  | .Cookie _ => PING_PONG_ATTR_COOKIE

def PingPongAttribute.emit_value : PingPongAttribute → List Nat
  | .Message s => s ++ [0]
  | .Cookie n => u32le n

/-- `Parseable<NlaBuffer> for PingPongAttribute`.  The `Message` arm trims
at the first null and converts through `String::from_utf8`.  The `Cookie`
arm does `bytes.copy_from_slice(payload)` into a `[u8; 4]`, which panics
whenever the payload is not exactly 4 bytes. -/
def PingPongAttribute.parse (kind : Nat) (payload : List Nat) :
    DRes PingPongAttribute :=
  if kind = PING_PONG_ATTR_MSG then
    if validUtf8 (nullPrefix payload) then .ok (.Message (nullPrefix payload))
    else .err "invalid utf-8 in ping-pong message attribute"
  else if kind = PING_PONG_ATTR_COOKIE then
    if payload.length = 4 then
      .ok (.Cookie (payload.getD 0 0 + 256 * payload.getD 1 0 +
        65536 * payload.getD 2 0 + 16777216 * payload.getD 3 0))
    else .panic
  else .err "Unknown attribute type"

/-- The `Nla` implementation of `PingPongAttribute` (`is_nested` is the
trait default, `false`). -/
def PPNla : NlaImpl PingPongAttribute :=
  ⟨PingPongAttribute.value_len, PingPongAttribute.kind, fun _ => false,
   PingPongAttribute.emit_value, PingPongAttribute.parse⟩

inductive PingPongMessage where
  | Ping : PingPongAttribute → PingPongMessage
  | Pong : PingPongAttribute → PingPongMessage
  deriving DecidableEq, Repr

def PingPongMessage.message_type : PingPongMessage → Nat
  | .Ping _ => PING_MESSAGE
  | .Pong _ => PONG_MESSAGE

def PingPongMessage.buffer_len : PingPongMessage → Nat
  | .Ping attr | .Pong attr => nlaBufferLen PPNla attr

/-- `NetlinkSerializable::serialize`: the single attribute record, with no
protocol header before it. -/
def PingPongMessage.serialize : PingPongMessage → List Nat
  | .Ping attr | .Pong attr => nlaEmit PPNla attr

/-- `NetlinkDeserializable::deserialize`: the whole payload is viewed as
one `NlaBuffer` (`NlaBuffer::new_checked`) and exactly one attribute is
parsed from it. -/
def PingPongMessage.deserialize (message_type : Nat) (payload : List Nat) :
    DRes PingPongMessage :=
  if nlaCheck payload then
    match PingPongAttribute.parse (nlaKind payload) (nlaValue payload) with
    | .err _ => .err "Failed to parse attributes"
    | .panic => .panic
    | .ok attributes =>
      if message_type = PING_MESSAGE then .ok (.Ping attributes)
      else if message_type = PONG_MESSAGE then .ok (.Pong attributes)
      else .err "invalid ping-pong message: invalid message type"
  else .err "Invalid NLA format in payload"

end PingPong

/-! ## The conntrack netfilter protocol (`conntrack/main.rs`) -/

namespace Conntrack

def NFGENMSG_LEN : Nat := 4

structure Nfgenmsg where
  nfgen_family : Nat
  version : Nat
  resource_id : Nat
  deriving DecidableEq, Repr

def Nfgenmsg.emit (m : Nfgenmsg) : List Nat :=
  [m.nfgen_family % 256, m.version % 256] ++ u16le m.resource_id

def Nfgenmsg.parse (b : List Nat) : DRes Nfgenmsg :=
  .ok ⟨b.getD 0 0, b.getD 1 0, readU16 (b.getD 2 0) (b.getD 3 0)⟩

def CTA_PROTO_NUM : Nat := 1
def CTA_PROTO_SRC_PORT : Nat := 2
def CTA_PROTO_DST_PORT : Nat := 3

inductive ProtoTuple where
  | Protocol : Nat → ProtoTuple
  | SourcePort : Nat → ProtoTuple
  | DestinationPort : Nat → ProtoTuple
  deriving DecidableEq, Repr

def ProtoTuple.value_len : ProtoTuple → Nat
  | .Protocol _ => 1
  | .SourcePort _ | .DestinationPort _ => 2

def ProtoTuple.kind : ProtoTuple → Nat
  | .Protocol _ => CTA_PROTO_NUM
  | .SourcePort _ => CTA_PROTO_SRC_PORT
  | .DestinationPort _ => CTA_PROTO_DST_PORT

def ProtoTuple.emit_value : ProtoTuple → List Nat
  | .Protocol v => [v % 256]
  | .SourcePort v | .DestinationPort v => u16le v

def ProtoTuple.parse (kind : Nat) (payload : List Nat) : DRes ProtoTuple :=
  if kind = CTA_PROTO_NUM then
    match parse_u8 payload with
    | .ok v => .ok (.Protocol v)
    | .err m => .err m
    | .panic => .panic
  else if kind = CTA_PROTO_SRC_PORT then
    match parse_u16 payload with
    | .ok v => .ok (.SourcePort v)
    | .err m => .err m
    | .panic => .panic
  else if kind = CTA_PROTO_DST_PORT then
    match parse_u16 payload with
    | .ok v => .ok (.DestinationPort v)
    | .err m => .err m
    | .panic => .panic
  else .err "invalid NLA kind"

/-- The `Nla` implementation of `ProtoTuple` (`is_nested` is the trait
default, `false`). -/
def ProtoNla : NlaImpl ProtoTuple :=
  ⟨ProtoTuple.value_len, ProtoTuple.kind, fun _ => false,
   ProtoTuple.emit_value, ProtoTuple.parse⟩

def IPV4_LEN : Nat := 4
def IPV6_LEN : Nat := 16

def CTA_IP_V4_SRC : Nat := 1
def CTA_IP_V4_DST : Nat := 2
def CTA_IP_V6_SRC : Nat := 3
def CTA_IP_V6_DST : Nat := 4

inductive IPTuple where
  | SourceAddress : IpAddr → IPTuple
  | DestinationAddress : IpAddr → IPTuple
  deriving DecidableEq, Repr

def IPTuple.value_len : IPTuple → Nat
  | .SourceAddress (.v4 _) | .DestinationAddress (.v4 _) => IPV4_LEN
  | .SourceAddress (.v6 _) | .DestinationAddress (.v6 _) => IPV6_LEN

def IPTuple.kind : IPTuple → Nat
  | .SourceAddress (.v4 _) => CTA_IP_V4_SRC
  | .SourceAddress (.v6 _) => CTA_IP_V6_SRC
  | .DestinationAddress (.v4 _) => CTA_IP_V4_DST
  | .DestinationAddress (.v6 _) => CTA_IP_V6_DST

def IPTuple.emit_value : IPTuple → List Nat
  | .SourceAddress addr | .DestinationAddress addr => emit_ip addr

def IPTuple.parse (kind : Nat) (payload : List Nat) : DRes IPTuple :=
  if kind = CTA_IP_V4_SRC ∨ kind = CTA_IP_V6_SRC then
    match parse_ip payload with
    | .ok a => .ok (.SourceAddress a)
    | .err m => .err m
    | .panic => .panic
  else if kind = CTA_IP_V4_DST ∨ kind = CTA_IP_V6_DST then
    match parse_ip payload with
    | .ok a => .ok (.DestinationAddress a)
    | .err m => .err m
    | .panic => .panic
  else .err "invalid NLA kind"

/-- The `Nla` implementation of `IPTuple` (`is_nested` is the trait
default, `false`). -/
def IPNla : NlaImpl IPTuple :=
  ⟨IPTuple.value_len, IPTuple.kind, fun _ => false,
   IPTuple.emit_value, IPTuple.parse⟩

def CTA_TUPLE_IP : Nat := 1
def CTA_TUPLE_PROTO : Nat := 2

inductive Tuple where
  | Ip : List IPTuple → Tuple
  | Proto : List ProtoTuple → Tuple
  deriving DecidableEq, Repr

def Tuple.value_len : Tuple → Nat
  | .Ip nlas => nlasBufferLen IPNla nlas
  | .Proto nlas => nlasBufferLen ProtoNla nlas

def Tuple.kind : Tuple → Nat
  | .Ip _ => CTA_TUPLE_IP
  | .Proto _ => CTA_TUPLE_PROTO

/-- `Tuple::emit_value` loops over the children, emitting each full
padded record and advancing by its `buffer_len`. -/
def Tuple.emit_value : Tuple → List Nat
  | .Ip nlas => nlasEmit IPNla nlas
  | .Proto nlas => nlasEmit ProtoNla nlas

def Tuple.is_nested : Tuple → Bool
  | .Ip _ | .Proto _ => true

def Tuple.parse (kind : Nat) (payload : List Nat) : DRes Tuple :=
  if kind = CTA_TUPLE_IP then
    match parseNlas IPNla payload with
    | .ok l => .ok (.Ip l)
    | .err m => .err m
    | .panic => .panic
  else if kind = CTA_TUPLE_PROTO then
    match parseNlas ProtoNla payload with
    | .ok l => .ok (.Proto l)
    | .err m => .err m
    | .panic => .panic
  else .err "invalid NLA kind"

def TupleNla : NlaImpl Tuple :=
  ⟨Tuple.value_len, Tuple.kind, Tuple.is_nested, Tuple.emit_value,
   Tuple.parse⟩

def CTA_TUPLE_ORIG : Nat := 1

inductive ConntrackAttribute where
  | CtaTupleOrig : List Tuple → ConntrackAttribute
  deriving DecidableEq, Repr

def ConntrackAttribute.value_len : ConntrackAttribute → Nat
  | .CtaTupleOrig nlas => nlasBufferLen TupleNla nlas

def ConntrackAttribute.kind : ConntrackAttribute → Nat
  | .CtaTupleOrig _ => CTA_TUPLE_ORIG

def ConntrackAttribute.emit_value : ConntrackAttribute → List Nat
  | .CtaTupleOrig nlas => nlasEmit TupleNla nlas

def ConntrackAttribute.is_nested : ConntrackAttribute → Bool
  | .CtaTupleOrig _ => true

def ConntrackAttribute.parse (kind : Nat) (payload : List Nat) :
    DRes ConntrackAttribute :=
  if kind = CTA_TUPLE_ORIG then
    match parseNlas TupleNla payload with
    | .ok l => .ok (.CtaTupleOrig l)
    | .err m => .err m
    | .panic => .panic
  else .err "invalid NLA kind"

def CtNla : NlaImpl ConntrackAttribute :=
  ⟨ConntrackAttribute.value_len, ConntrackAttribute.kind,
   ConntrackAttribute.is_nested, ConntrackAttribute.emit_value,
   ConntrackAttribute.parse⟩

def NETFILTER_CONNTRACK_GET_MESSAGE_TYPE : Nat := 1 * 256 + 1

inductive NetfilterMessage where
  | ConntrackGet : Nfgenmsg → List ConntrackAttribute → NetfilterMessage
  deriving DecidableEq, Repr

def NetfilterMessage.message_type : NetfilterMessage → Nat
  | .ConntrackGet _ _ => NETFILTER_CONNTRACK_GET_MESSAGE_TYPE

def NetfilterMessage.buffer_len : NetfilterMessage → Nat
  | .ConntrackGet _ nlas => NFGENMSG_LEN + nlasBufferLen CtNla nlas

def NetfilterMessage.serialize : NetfilterMessage → List Nat
  | .ConntrackGet header nlas => header.emit ++ nlasEmit CtNla nlas

def NetfilterMessage.deserialize (message_type : Nat) (payload : List Nat) :
    DRes NetfilterMessage :=
  if payload.length < NFGENMSG_LEN then
    .err "Payload is too short for NFGENMSG header"
  else
    match Nfgenmsg.parse (payload.take NFGENMSG_LEN) with
    | .err m => .err m
    | .panic => .panic
    | .ok nfgen_header =>
      match parseNlas CtNla (payload.drop NFGENMSG_LEN) with
      | .err m => .err m
      | .panic => .panic
      | .ok nlas =>
        if message_type = NETFILTER_CONNTRACK_GET_MESSAGE_TYPE then
          .ok (.ConntrackGet nfgen_header nlas)
        else .err "Unknown message type for Beverage protocol"

end Conntrack

/-! ## Raw records and well-formedness -/

/-- A raw wire record with the given kind field and value bytes: length
field, kind field, value, zero padding to the 4-byte boundary. -/
def rawNla (kind : Nat) (value : List Nat) : List Nat :=
  u16le (value.length + 4) ++ u16le kind ++ value ++
    List.replicate (pad4 value.length) 0

/-- The well-formedness a record needs to survive the generic round trip:
the value bytes match `value_len`, the record fits a u16 length field,
the wire kind field is a u16 whose masked value is the kind, and the
level's parser inverts `emit_value`. -/
def WfNla (I : NlaImpl α) (a : α) : Prop :=
  (I.emit_value a).length = I.value_len a ∧
  I.value_len a + 4 < 65536 ∧
  nlaWireKind I a < 65536 ∧
  nlaWireKind I a % 16384 = I.kind a ∧
  I.parse (I.kind a) (I.emit_value a) = .ok a


/-! ## In-memory well-formedness

The Rust type system enforces most of these conditions (`u8`/`u16`/`u32`
field widths, `String` UTF-8 validity, `Ipv4Addr`/`Ipv6Addr` octet
counts); over the `Nat`/`List Nat` embedding they are explicit decidable
predicates.  The only conditions Rust does not enforce are the absence
of interior null bytes in strings and the u16 bound on record lengths. -/

/-- A beverage attribute is well formed when scalars fit a u32, strings
hold no interior null and are valid UTF-8, and the record fits the u16
length field. -/
def TeaCoffee.BeverageAttribute.wf : TeaCoffee.BeverageAttribute → Bool
  | .CaffeineContent v | .Hotness v => decide (v < 4294967296)
  | .PersonName s =>
    !decide (0 ∈ s) && validUtf8 s && decide (s.length + 5 < 65536)

def TeaCoffee.BvgGenMsg.wf (m : TeaCoffee.BvgGenMsg) : Bool :=
  decide (m.version < 256) && decide (m.resource_id < 65536)

def TeaCoffee.BeverageMessage.wf : TeaCoffee.BeverageMessage → Bool
  | .Tea header nlas | .Coffee header nlas =>
    header.wf && nlas.all TeaCoffee.BeverageAttribute.wf

def PingPong.PingPongAttribute.wf : PingPong.PingPongAttribute → Bool
  | .Message s =>
    !decide (0 ∈ s) && validUtf8 s && decide (s.length + 5 < 65536)
  | .Cookie v => decide (v < 4294967296)

def PingPong.PingPongMessage.wf : PingPong.PingPongMessage → Bool
  | .Ping attr | .Pong attr => attr.wf

def Conntrack.ProtoTuple.wf : Conntrack.ProtoTuple → Bool
  | .Protocol v => decide (v < 256)
  | .SourcePort v | .DestinationPort v => decide (v < 65536)

def Conntrack.IPTuple.wf : Conntrack.IPTuple → Bool
  | .SourceAddress (.v4 o) | .DestinationAddress (.v4 o) =>
    decide (o.length = 4)
  | .SourceAddress (.v6 o) | .DestinationAddress (.v6 o) =>
    decide (o.length = 16)

def Conntrack.Tuple.wf : Conntrack.Tuple → Bool
  | .Ip nlas => nlas.all Conntrack.IPTuple.wf &&
      decide (nlasBufferLen Conntrack.IPNla nlas + 4 < 65536)
  | .Proto nlas => nlas.all Conntrack.ProtoTuple.wf &&
      decide (nlasBufferLen Conntrack.ProtoNla nlas + 4 < 65536)

def Conntrack.ConntrackAttribute.wf : Conntrack.ConntrackAttribute → Bool
  | .CtaTupleOrig nlas => nlas.all Conntrack.Tuple.wf &&
      decide (nlasBufferLen Conntrack.TupleNla nlas + 4 < 65536)

def Conntrack.Nfgenmsg.wf (m : Conntrack.Nfgenmsg) : Bool :=
  decide (m.nfgen_family < 256) && decide (m.version < 256) &&
    decide (m.resource_id < 65536)

def Conntrack.NetfilterMessage.wf : Conntrack.NetfilterMessage → Bool
  | .ConntrackGet header nlas =>
    header.wf && nlas.all Conntrack.ConntrackAttribute.wf

/-! ## The example messages built by the three `main` functions -/

/-- The tea request built in `tea_coffee.rs`'s `main` ("Alice" is the
byte list of the person name). -/
def TeaCoffee.tea_request : TeaCoffee.BeverageMessage :=
  .Tea ⟨.Hot, 1, 101⟩
    [.Hotness 95, .PersonName [65, 108, 105, 99, 101],
     .CaffeineContent 21932130]

/-- The conntrack get message built in `conntrack/main.rs`'s `main`. -/
def Conntrack.conntrack_get_message : Conntrack.NetfilterMessage :=
  .ConntrackGet ⟨0, 0, 0⟩
    [.CtaTupleOrig
      [.Ip [.SourceAddress (.v4 [10, 0, 42, 55]),
            .DestinationAddress (.v4 [172, 64, 148, 235])],
       .Proto [.Protocol 6, .SourcePort 48154, .DestinationPort 443]]]

/-- The ping message built in `pingpong.rs`'s `main`. -/
def PingPong.ping_pong_message : PingPong.PingPongMessage :=
  .Ping (.Cookie 129)

/-! ## Generic record lemmas -/

theorem align4_add4 (n : Nat) : align4 (n + 4) = n + pad4 n + 4 := by
  unfold align4 pad4; omega

theorem rawNla_length (k : Nat) (v : List Nat) :
    (rawNla k v).length = v.length + pad4 v.length + 4 := by
  simp [rawNla, u16le]; try omega

theorem rawNla_cons (k : Nat) (v rest : List Nat) :
    rawNla k v ++ rest =
      (v.length + 4) % 256 :: (v.length + 4) / 256 % 256 ::
      k % 256 :: k / 256 % 256 ::
      (v ++ (List.replicate (pad4 v.length) 0 ++ rest)) := by
  simp [rawNla, u16le]

theorem nlaLength_rawNla_append (k : Nat) (v rest : List Nat)
    (hfit : v.length + 4 < 65536) :
    nlaLength (rawNla k v ++ rest) = v.length + 4 := by
  rw [rawNla_cons]
  simp [nlaLength, readU16]
  omega

theorem nlaKind_rawNla_append (k : Nat) (v rest : List Nat)
    (hk : k < 65536) :
    nlaKind (rawNla k v ++ rest) = k % 16384 := by
  rw [rawNla_cons]
  simp [nlaKind, nlaKindField, readU16]
  omega

theorem nlaValue_rawNla_append (k : Nat) (v rest : List Nat)
    (hfit : v.length + 4 < 65536) :
    nlaValue (rawNla k v ++ rest) = v := by
  unfold nlaValue
  rw [nlaLength_rawNla_append k v rest hfit, rawNla_cons]
  simp only [List.drop_succ_cons, List.drop_zero, Nat.add_sub_cancel]
  exact List.take_left v _

theorem drop_rawNla_append (k : Nat) (v rest : List Nat) :
    (rawNla k v ++ rest).drop (align4 (v.length + 4)) = rest := by
  rw [align4_add4, show v.length + pad4 v.length + 4 = (rawNla k v).length by
    rw [rawNla_length]]
  exact List.drop_left _ _

/-- Stepping the `NlasIterator` loop over one raw record: the record is
checked, its masked kind and value are handed to the attribute parser,
and the loop continues past the aligned record. -/
theorem parseNlas_rawNla (I : NlaImpl α) (k : Nat) (v rest : List Nat)
    (hk : k < 65536) (hfit : v.length + 4 < 65536) :
    parseNlas I (rawNla k v ++ rest) =
      match I.parse (k % 16384) v with
      | .ok a =>
        match parseNlas I rest with
        | .ok l => .ok (a :: l)
        | .err m => .err m
        | .panic => .panic
      | .err m => .err m
      | .panic => .panic := by
  have hL : nlaLength (rawNla k v ++ rest) = v.length + 4 :=
    nlaLength_rawNla_append k v rest hfit
  have hlen : (rawNla k v ++ rest).length =
      v.length + pad4 v.length + 4 + rest.length := by
    rw [List.length_append, rawNla_length]
  rw [parseNlas]
  rw [if_neg (by omega)]
  rw [dif_pos (by refine ⟨by omega, ?_, by omega⟩; rw [hL]; omega)]
  rw [nlaKind_rawNla_append k v rest hk, nlaValue_rawNla_append k v rest hfit,
    hL, drop_rawNla_append k v rest]

theorem nlaEmit_eq_rawNla (I : NlaImpl α) (a : α)
    (h : (I.emit_value a).length = I.value_len a) :
    nlaEmit I a = rawNla (nlaWireKind I a) (I.emit_value a) := by
  simp [nlaEmit, rawNla, h]

theorem parseNlas_cons (I : NlaImpl α) (a : α) (rest : List Nat)
    (h : WfNla I a) :
    parseNlas I (nlaEmit I a ++ rest) =
      match parseNlas I rest with
      | .ok l => .ok (a :: l)
      | .err m => .err m
      | .panic => .panic := by
  obtain ⟨h1, h2, h3, h4, h5⟩ := h
  rw [nlaEmit_eq_rawNla I a h1,
    parseNlas_rawNla I _ _ rest h3 (by rw [h1]; omega), h4, h5]

theorem parseNlas_nil (I : NlaImpl α) : parseNlas I [] = .ok [] := by
  rw [parseNlas]; simp

/-- Generic list round trip: parsing the concatenated records of a
well-formed attribute list returns exactly that list. -/
theorem parseNlas_emitNlas (I : NlaImpl α) (l : List α)
    (h : ∀ a ∈ l, WfNla I a) :
    parseNlas I (nlasEmit I l) = .ok l := by
  induction l with
  | nil => rw [nlasEmit]; exact parseNlas_nil I
  | cons a r ih =>
    rw [nlasEmit, parseNlas_cons I a _ (h a (by simp)),
      ih (fun x hx => h x (by simp [hx]))]

theorem nlaEmit_length (I : NlaImpl α) (a : α)
    (h : (I.emit_value a).length = I.value_len a) :
    (nlaEmit I a).length = nlaBufferLen I a := by
  simp [nlaEmit, u16le, nlaBufferLen, h]; try omega

theorem nlasEmit_length (I : NlaImpl α) (l : List α)
    (h : ∀ a ∈ l, (I.emit_value a).length = I.value_len a) :
    (nlasEmit I l).length = nlasBufferLen I l := by
  induction l with
  | nil => rw [nlasEmit, nlasBufferLen]; rfl
  | cons a r ih =>
    rw [nlasEmit, nlasBufferLen, List.length_append,
      nlaEmit_length I a (h a (by simp)),
      ih (fun x hx => h x (by simp [hx]))]

/-- `buffer_len` of a list is the sum over the records of
`align4(value_len + 4)`. -/
theorem nlasBufferLen_eq_sum (I : NlaImpl α) (l : List α) :
    nlasBufferLen I l =
      (l.map (fun a => align4 (I.value_len a + 4))).sum := by
  induction l with
  | nil => rfl
  | cons a r ih =>
    rw [nlasBufferLen, List.map_cons, List.sum_cons, ih, align4_add4,
      nlaBufferLen]

/-! ## String helper lemmas -/

theorem nullPrefix_of_not_mem (s : List Nat) (h : 0 ∉ s) :
    nullPrefix s = s := by
  induction s with
  | nil => rfl
  | cons b r ih =>
    have hb : ¬ b = 0 := fun hb => h (by simp [hb])
    have hr : 0 ∉ r := fun hr => h (by simp [hr])
    rw [nullPrefix, if_neg hb, ih hr]

theorem nullPrefix_append_null (s t : List Nat) (h : 0 ∉ s) :
    nullPrefix (s ++ 0 :: t) = s := by
  induction s with
  | nil => simp [nullPrefix]
  | cons b r ih =>
    have hb : ¬ b = 0 := fun hb => h (by simp [hb])
    have hr : 0 ∉ r := fun hr => h (by simp [hr])
    rw [List.cons_append, nullPrefix, if_neg hb, ih hr]

theorem nullPrefix_length_le (s : List Nat) :
    (nullPrefix s).length ≤ s.length := by
  induction s with
  | nil => simp [nullPrefix]
  | cons b r ih =>
    rw [nullPrefix]
    by_cases hb : b = 0
    · simp [hb]
    · simp [hb]; omega

/-! ## Per-protocol well-formedness soundness -/

namespace TeaCoffee

theorem wfNla_bev (a : BeverageAttribute) (h : a.wf = true) :
    WfNla BevNla a := by
  cases a with
  | CaffeineContent v =>
    simp only [BeverageAttribute.wf, decide_eq_true_eq] at h
    refine ⟨rfl, ?_, ?_, ?_, ?_⟩
    · simp [BevNla, BeverageAttribute.value_len]
    · simp [nlaWireKind, BevNla, BeverageAttribute.kind,
        BVG_ATTR_CAFFEINE_CONTENT]
    · simp [nlaWireKind, BevNla, BeverageAttribute.kind,
        BVG_ATTR_CAFFEINE_CONTENT]
    · show BeverageAttribute.parse 1 (u32le v) = .ok (.CaffeineContent v)
      simp [BeverageAttribute.parse, BVG_ATTR_CAFFEINE_CONTENT,
        parse_u32, u32le]
      omega
  | Hotness v =>
    simp only [BeverageAttribute.wf, decide_eq_true_eq] at h
    refine ⟨rfl, ?_, ?_, ?_, ?_⟩
    · simp [BevNla, BeverageAttribute.value_len]
    · simp [nlaWireKind, BevNla, BeverageAttribute.kind, BVG_ATTR_HOTNESS]
    · simp [nlaWireKind, BevNla, BeverageAttribute.kind, BVG_ATTR_HOTNESS]
    · show BeverageAttribute.parse 2 (u32le v) = .ok (.Hotness v)
      simp [BeverageAttribute.parse, BVG_ATTR_CAFFEINE_CONTENT,
        BVG_ATTR_HOTNESS, parse_u32, u32le]
      omega
  | PersonName s =>
    simp only [BeverageAttribute.wf, Bool.and_eq_true, Bool.not_eq_true',
      decide_eq_false_iff_not, decide_eq_true_eq] at h
    obtain ⟨⟨h0, hu⟩, hfit⟩ := h
    refine ⟨?_, ?_, ?_, ?_, ?_⟩
    · simp [BevNla, BeverageAttribute.emit_value, BeverageAttribute.value_len]
    · show s.length + 1 + 4 < 65536
      omega
    · simp [nlaWireKind, BevNla, BeverageAttribute.kind,
        BVG_ATTR_PERSON_NAME]
    · simp [nlaWireKind, BevNla, BeverageAttribute.kind,
        BVG_ATTR_PERSON_NAME]
    · show BeverageAttribute.parse 3 (s ++ [0]) = .ok (.PersonName s)
      simp [BeverageAttribute.parse, BVG_ATTR_CAFFEINE_CONTENT,
        BVG_ATTR_HOTNESS, BVG_ATTR_PERSON_NAME, parse_string,
        nullPrefix_append_null s [] h0, hu]

end TeaCoffee

namespace PingPong

theorem wfNla_pp (a : PingPongAttribute) (h : a.wf = true) :
    WfNla PPNla a := by
  cases a with
  | Message s =>
    simp only [PingPongAttribute.wf, Bool.and_eq_true, Bool.not_eq_true',
      decide_eq_false_iff_not, decide_eq_true_eq] at h
    obtain ⟨⟨h0, hu⟩, hfit⟩ := h
    refine ⟨?_, ?_, ?_, ?_, ?_⟩
    · simp [PPNla, PingPongAttribute.emit_value, PingPongAttribute.value_len]
    · show s.length + 1 + 4 < 65536
      omega
    · simp [nlaWireKind, PPNla, PingPongAttribute.kind, PING_PONG_ATTR_MSG]
    · simp [nlaWireKind, PPNla, PingPongAttribute.kind, PING_PONG_ATTR_MSG]
    · show PingPongAttribute.parse 1 (s ++ [0]) = .ok (.Message s)
      simp [PingPongAttribute.parse, PING_PONG_ATTR_MSG,
        nullPrefix_append_null s [] h0, hu]
  | Cookie v =>
    simp only [PingPongAttribute.wf, decide_eq_true_eq] at h
    refine ⟨rfl, ?_, ?_, ?_, ?_⟩
    · simp [PPNla, PingPongAttribute.value_len]
    · simp [nlaWireKind, PPNla, PingPongAttribute.kind,
        PING_PONG_ATTR_COOKIE]
    · simp [nlaWireKind, PPNla, PingPongAttribute.kind,
        PING_PONG_ATTR_COOKIE]
    · show PingPongAttribute.parse 2 (u32le v) = .ok (.Cookie v)
      simp [PingPongAttribute.parse, PING_PONG_ATTR_MSG,
        PING_PONG_ATTR_COOKIE, u32le, List.getD]
      omega

end PingPong

namespace Conntrack

theorem wfNla_proto (a : ProtoTuple) (h : a.wf = true) :
    WfNla ProtoNla a := by
  cases a with
  | Protocol v =>
    simp only [ProtoTuple.wf, decide_eq_true_eq] at h
    refine ⟨rfl, ?_, ?_, ?_, ?_⟩
    · simp [ProtoNla, ProtoTuple.value_len]
    · simp [nlaWireKind, ProtoNla, ProtoTuple.kind, CTA_PROTO_NUM]
    · simp [nlaWireKind, ProtoNla, ProtoTuple.kind, CTA_PROTO_NUM]
    · show ProtoTuple.parse 1 [v % 256] = .ok (.Protocol v)
      simp [ProtoTuple.parse, CTA_PROTO_NUM, parse_u8]
      omega
  | SourcePort v =>
    simp only [ProtoTuple.wf, decide_eq_true_eq] at h
    refine ⟨rfl, ?_, ?_, ?_, ?_⟩
    · simp [ProtoNla, ProtoTuple.value_len]
    · simp [nlaWireKind, ProtoNla, ProtoTuple.kind, CTA_PROTO_SRC_PORT]
    · simp [nlaWireKind, ProtoNla, ProtoTuple.kind, CTA_PROTO_SRC_PORT]
    · show ProtoTuple.parse 2 (u16le v) = .ok (.SourcePort v)
      simp [ProtoTuple.parse, CTA_PROTO_NUM, CTA_PROTO_SRC_PORT,
        parse_u16, u16le]
      omega
  | DestinationPort v =>
    simp only [ProtoTuple.wf, decide_eq_true_eq] at h
    refine ⟨rfl, ?_, ?_, ?_, ?_⟩
    · simp [ProtoNla, ProtoTuple.value_len]
    · simp [nlaWireKind, ProtoNla, ProtoTuple.kind, CTA_PROTO_DST_PORT]
    · simp [nlaWireKind, ProtoNla, ProtoTuple.kind, CTA_PROTO_DST_PORT]
    · show ProtoTuple.parse 3 (u16le v) = .ok (.DestinationPort v)
      simp [ProtoTuple.parse, CTA_PROTO_NUM, CTA_PROTO_SRC_PORT,
        CTA_PROTO_DST_PORT, parse_u16, u16le]
      omega

theorem wfNla_ip (a : IPTuple) (h : a.wf = true) : WfNla IPNla a := by
  cases a with
  | SourceAddress addr =>
    cases addr with
    | v4 o =>
      simp only [IPTuple.wf, decide_eq_true_eq] at h
      refine ⟨?_, ?_, ?_, ?_, ?_⟩
      · simp [IPNla, IPTuple.emit_value, IPTuple.value_len, emit_ip, IPV4_LEN, h]
      · simp [IPNla, IPTuple.value_len, IPV4_LEN]
      · simp [nlaWireKind, IPNla, IPTuple.kind, CTA_IP_V4_SRC]
      · simp [nlaWireKind, IPNla, IPTuple.kind, CTA_IP_V4_SRC]
      · show IPTuple.parse 1 (emit_ip (.v4 o)) = .ok (.SourceAddress (.v4 o))
        simp [IPTuple.parse, CTA_IP_V4_SRC, CTA_IP_V6_SRC, emit_ip,
          parse_ip, h]
    | v6 o =>
      simp only [IPTuple.wf, decide_eq_true_eq] at h
      refine ⟨?_, ?_, ?_, ?_, ?_⟩
      · simp [IPNla, IPTuple.emit_value, IPTuple.value_len, emit_ip, IPV6_LEN, h]
      · simp [IPNla, IPTuple.value_len, IPV6_LEN]
      · simp [nlaWireKind, IPNla, IPTuple.kind, CTA_IP_V6_SRC]
      · simp [nlaWireKind, IPNla, IPTuple.kind, CTA_IP_V6_SRC]
      · show IPTuple.parse 3 (emit_ip (.v6 o)) = .ok (.SourceAddress (.v6 o))
        simp [IPTuple.parse, CTA_IP_V4_SRC, CTA_IP_V6_SRC, emit_ip,
          parse_ip, h]
  | DestinationAddress addr =>
    cases addr with
    | v4 o =>
      simp only [IPTuple.wf, decide_eq_true_eq] at h
      refine ⟨?_, ?_, ?_, ?_, ?_⟩
      · simp [IPNla, IPTuple.emit_value, IPTuple.value_len, emit_ip, IPV4_LEN, h]
      · simp [IPNla, IPTuple.value_len, IPV4_LEN]
      · simp [nlaWireKind, IPNla, IPTuple.kind, CTA_IP_V4_DST]
      · simp [nlaWireKind, IPNla, IPTuple.kind, CTA_IP_V4_DST]
      · show IPTuple.parse 2 (emit_ip (.v4 o)) =
          .ok (.DestinationAddress (.v4 o))
        simp [IPTuple.parse, CTA_IP_V4_SRC, CTA_IP_V6_SRC, CTA_IP_V4_DST,
          CTA_IP_V6_DST, emit_ip, parse_ip, h]
    | v6 o =>
      simp only [IPTuple.wf, decide_eq_true_eq] at h
      refine ⟨?_, ?_, ?_, ?_, ?_⟩
      · simp [IPNla, IPTuple.emit_value, IPTuple.value_len, emit_ip, IPV6_LEN, h]
      · simp [IPNla, IPTuple.value_len, IPV6_LEN]
      · simp [nlaWireKind, IPNla, IPTuple.kind, CTA_IP_V6_DST]
      · simp [nlaWireKind, IPNla, IPTuple.kind, CTA_IP_V6_DST]
      · show IPTuple.parse 4 (emit_ip (.v6 o)) =
          .ok (.DestinationAddress (.v6 o))
        simp [IPTuple.parse, CTA_IP_V4_SRC, CTA_IP_V6_SRC, CTA_IP_V4_DST,
          CTA_IP_V6_DST, emit_ip, parse_ip, h]

end Conntrack

namespace Conntrack

theorem wfNla_tuple (t : Tuple) (h : t.wf = true) : WfNla TupleNla t := by
  cases t with
  | Ip nlas =>
    simp only [Tuple.wf, Bool.and_eq_true, List.all_eq_true,
      decide_eq_true_eq] at h
    obtain ⟨hall, hfit⟩ := h
    have hlen : (nlasEmit IPNla nlas).length = nlasBufferLen IPNla nlas :=
      nlasEmit_length _ _ (fun a ha => (wfNla_ip a (hall a ha)).1)
    have hp : parseNlas IPNla (nlasEmit IPNla nlas) = .ok nlas :=
      parseNlas_emitNlas _ _ (fun a ha => wfNla_ip a (hall a ha))
    refine ⟨hlen, hfit, ?_, ?_, ?_⟩
    · show (1 ||| 32768 : Nat) < 65536
      decide
    · show (1 ||| 32768 : Nat) % 16384 = 1
      decide
    · show Tuple.parse 1 (nlasEmit IPNla nlas) = .ok (.Ip nlas)
      simp [Tuple.parse, CTA_TUPLE_IP, hp]
  | Proto nlas =>
    simp only [Tuple.wf, Bool.and_eq_true, List.all_eq_true,
      decide_eq_true_eq] at h
    obtain ⟨hall, hfit⟩ := h
    have hlen : (nlasEmit ProtoNla nlas).length = nlasBufferLen ProtoNla nlas :=
      nlasEmit_length _ _ (fun a ha => (wfNla_proto a (hall a ha)).1)
    have hp : parseNlas ProtoNla (nlasEmit ProtoNla nlas) = .ok nlas :=
      parseNlas_emitNlas _ _ (fun a ha => wfNla_proto a (hall a ha))
    refine ⟨hlen, hfit, ?_, ?_, ?_⟩
    · show (2 ||| 32768 : Nat) < 65536
      decide
    · show (2 ||| 32768 : Nat) % 16384 = 2
      decide
    · show Tuple.parse 2 (nlasEmit ProtoNla nlas) = .ok (.Proto nlas)
      simp [Tuple.parse, CTA_TUPLE_IP, CTA_TUPLE_PROTO, hp]

theorem wfNla_ct (a : ConntrackAttribute) (h : a.wf = true) :
    WfNla CtNla a := by
  cases a with
  | CtaTupleOrig nlas =>
    simp only [ConntrackAttribute.wf, Bool.and_eq_true, List.all_eq_true,
      decide_eq_true_eq] at h
    obtain ⟨hall, hfit⟩ := h
    have hlen : (nlasEmit TupleNla nlas).length = nlasBufferLen TupleNla nlas :=
      nlasEmit_length _ _ (fun a ha => (wfNla_tuple a (hall a ha)).1)
    have hp : parseNlas TupleNla (nlasEmit TupleNla nlas) = .ok nlas :=
      parseNlas_emitNlas _ _ (fun a ha => wfNla_tuple a (hall a ha))
    refine ⟨hlen, hfit, ?_, ?_, ?_⟩
    · show (1 ||| 32768 : Nat) < 65536
      decide
    · show (1 ||| 32768 : Nat) % 16384 = 1
      decide
    · show ConntrackAttribute.parse 1 (nlasEmit TupleNla nlas) =
        .ok (.CtaTupleOrig nlas)
      simp [ConntrackAttribute.parse, CTA_TUPLE_ORIG, hp]

end Conntrack

/-! ## Header round trips -/

namespace TeaCoffee

theorem bvg_header_roundtrip (m : BvgGenMsg) (hv : m.version < 256)
    (hr : m.resource_id < 65536) : BvgGenMsg.parse m.emit = .ok m := by
  obtain ⟨f, v, r⟩ := m
  simp only at hv hr
  cases f <;>
    simp [BvgGenMsg.emit, BvgGenMsg.parse, BvgGenFamily.toU8,
      BvgGenFamily.tryFrom, u16le, readU16, List.getD] <;> omega

theorem bvg_emit_length (m : BvgGenMsg) : m.emit.length = 4 := by
  simp [BvgGenMsg.emit, u16le]

end TeaCoffee

namespace Conntrack

theorem nfgen_header_roundtrip (m : Nfgenmsg) (hf : m.nfgen_family < 256)
    (hv : m.version < 256) (hr : m.resource_id < 65536) :
    Nfgenmsg.parse m.emit = .ok m := by
  obtain ⟨f, v, r⟩ := m
  simp only at hf hv hr
  simp [Nfgenmsg.emit, Nfgenmsg.parse, u16le, readU16, List.getD]
  omega

theorem nfgen_emit_length (m : Nfgenmsg) : m.emit.length = 4 := by
  simp [Nfgenmsg.emit, u16le]

end Conntrack

/-! ## Record accessor corollaries and message round trips -/

theorem nlaLength_rawNla (k : Nat) (v : List Nat)
    (hfit : v.length + 4 < 65536) : nlaLength (rawNla k v) = v.length + 4 := by
  have := nlaLength_rawNla_append k v [] hfit
  rwa [List.append_nil] at this

theorem nlaKind_rawNla (k : Nat) (v : List Nat) (hk : k < 65536) :
    nlaKind (rawNla k v) = k % 16384 := by
  have := nlaKind_rawNla_append k v [] hk
  rwa [List.append_nil] at this

theorem nlaValue_rawNla (k : Nat) (v : List Nat)
    (hfit : v.length + 4 < 65536) : nlaValue (rawNla k v) = v := by
  have := nlaValue_rawNla_append k v [] hfit
  rwa [List.append_nil] at this

theorem nlaCheck_rawNla_append (k : Nat) (v rest : List Nat)
    (hfit : v.length + 4 < 65536) :
    nlaCheck (rawNla k v ++ rest) = true := by
  unfold nlaCheck
  rw [nlaLength_rawNla_append k v rest hfit]
  have hlen : (rawNla k v ++ rest).length =
      v.length + pad4 v.length + 4 + rest.length := by
    rw [List.length_append, rawNla_length]
  simp only [Bool.and_eq_true, decide_eq_true_eq]
  refine ⟨⟨by omega, by omega⟩, by omega⟩

namespace TeaCoffee

theorem bev_deserialize_emit (header : BvgGenMsg)
    (nlas : List BeverageAttribute) (hh : header.wf = true)
    (hall : ∀ a ∈ nlas, BeverageAttribute.wf a = true) (mt : Nat) :
    BeverageMessage.deserialize mt (header.emit ++ nlasEmit BevNla nlas) =
      if mt = TEA_MESSAGE_TYPE then .ok (.Tea header nlas)
      else if mt = COFFEE_MESSAGE_TYPE then .ok (.Coffee header nlas)
      else .err "Unknown message type for Beverage protocol" := by
  simp only [BvgGenMsg.wf, Bool.and_eq_true, decide_eq_true_eq] at hh
  have htake : (header.emit ++ nlasEmit BevNla nlas).take BVG_GEN_MSG_LEN =
      header.emit := by
    rw [show BVG_GEN_MSG_LEN = header.emit.length by rw [bvg_emit_length]; rfl]
    exact List.take_left _ _
  have hdrop : (header.emit ++ nlasEmit BevNla nlas).drop BVG_GEN_MSG_LEN =
      nlasEmit BevNla nlas := by
    rw [show BVG_GEN_MSG_LEN = header.emit.length by rw [bvg_emit_length]; rfl]
    exact List.drop_left _ _
  have hlen : ¬ (header.emit ++ nlasEmit BevNla nlas).length <
      BVG_GEN_MSG_LEN := by
    rw [List.length_append, bvg_emit_length]
    show ¬ _ < 4
    omega
  unfold BeverageMessage.deserialize
  rw [if_neg hlen, htake, hdrop, bvg_header_roundtrip header hh.1 hh.2,
    parseNlas_emitNlas BevNla nlas (fun a ha => wfNla_bev a (hall a ha))]

theorem bev_roundtrip (m : BeverageMessage) (h : m.wf = true) :
    BeverageMessage.deserialize m.message_type m.serialize = .ok m := by
  cases m with
  | Tea header nlas =>
    simp only [BeverageMessage.wf, Bool.and_eq_true, List.all_eq_true] at h
    rw [BeverageMessage.serialize, BeverageMessage.message_type,
      bev_deserialize_emit header nlas h.1 h.2]
    simp [TEA_MESSAGE_TYPE]
  | Coffee header nlas =>
    simp only [BeverageMessage.wf, Bool.and_eq_true, List.all_eq_true] at h
    rw [BeverageMessage.serialize, BeverageMessage.message_type,
      bev_deserialize_emit header nlas h.1 h.2]
    simp [TEA_MESSAGE_TYPE, COFFEE_MESSAGE_TYPE]

end TeaCoffee

namespace Conntrack

theorem nf_deserialize_emit (header : Nfgenmsg)
    (nlas : List ConntrackAttribute) (hh : header.wf = true)
    (hall : ∀ a ∈ nlas, ConntrackAttribute.wf a = true) (mt : Nat) :
    NetfilterMessage.deserialize mt (header.emit ++ nlasEmit CtNla nlas) =
      if mt = NETFILTER_CONNTRACK_GET_MESSAGE_TYPE then
        .ok (.ConntrackGet header nlas)
      else .err "Unknown message type for Beverage protocol" := by
  simp only [Nfgenmsg.wf, Bool.and_eq_true, decide_eq_true_eq] at hh
  have htake : (header.emit ++ nlasEmit CtNla nlas).take NFGENMSG_LEN =
      header.emit := by
    rw [show NFGENMSG_LEN = header.emit.length by rw [nfgen_emit_length]; rfl]
    exact List.take_left _ _
  have hdrop : (header.emit ++ nlasEmit CtNla nlas).drop NFGENMSG_LEN =
      nlasEmit CtNla nlas := by
    rw [show NFGENMSG_LEN = header.emit.length by rw [nfgen_emit_length]; rfl]
    exact List.drop_left _ _
  have hlen : ¬ (header.emit ++ nlasEmit CtNla nlas).length <
      NFGENMSG_LEN := by
    rw [List.length_append, nfgen_emit_length]
    show ¬ _ < 4
    omega
  unfold NetfilterMessage.deserialize
  rw [if_neg hlen, htake, hdrop,
    nfgen_header_roundtrip header hh.1.1 hh.1.2 hh.2,
    parseNlas_emitNlas CtNla nlas (fun a ha => wfNla_ct a (hall a ha))]

theorem nf_roundtrip (m : NetfilterMessage) (h : m.wf = true) :
    NetfilterMessage.deserialize m.message_type m.serialize = .ok m := by
  cases m with
  | ConntrackGet header nlas =>
    simp only [NetfilterMessage.wf, Bool.and_eq_true, List.all_eq_true] at h
    rw [NetfilterMessage.serialize, NetfilterMessage.message_type,
      nf_deserialize_emit header nlas h.1 h.2]
    simp [NETFILTER_CONNTRACK_GET_MESSAGE_TYPE]

end Conntrack

namespace PingPong

theorem pp_deserialize_emit (attr : PingPongAttribute) (extra : List Nat)
    (hw : WfNla PPNla attr) (mt : Nat) :
    PingPongMessage.deserialize mt (nlaEmit PPNla attr ++ extra) =
      if mt = PING_MESSAGE then .ok (.Ping attr)
      else if mt = PONG_MESSAGE then .ok (.Pong attr)
      else .err "invalid ping-pong message: invalid message type" := by
  obtain ⟨h1, h2, h3, h4, h5⟩ := hw
  have hfit : (PPNla.emit_value attr).length + 4 < 65536 := by rw [h1]; omega
  rw [nlaEmit_eq_rawNla _ _ h1]
  unfold PingPongMessage.deserialize
  have h5' : PingPongAttribute.parse (PPNla.kind attr)
      (PPNla.emit_value attr) = .ok attr := h5
  rw [if_pos (nlaCheck_rawNla_append _ _ extra hfit),
    nlaKind_rawNla_append _ _ extra h3,
    nlaValue_rawNla_append _ _ extra hfit, h4, h5']

theorem pp_roundtrip (m : PingPongMessage) (h : m.wf = true) :
    PingPongMessage.deserialize m.message_type m.serialize = .ok m := by
  cases m with
  | Ping attr =>
    have hw : WfNla PPNla attr :=
      wfNla_pp attr (by simpa [PingPongMessage.wf] using h)
    rw [PingPongMessage.serialize, PingPongMessage.message_type,
      ← List.append_nil (nlaEmit PPNla attr),
      pp_deserialize_emit attr [] hw]
    simp [PING_MESSAGE]
  | Pong attr =>
    have hw : WfNla PPNla attr :=
      wfNla_pp attr (by simpa [PingPongMessage.wf] using h)
    rw [PingPongMessage.serialize, PingPongMessage.message_type,
      ← List.append_nil (nlaEmit PPNla attr),
      pp_deserialize_emit attr [] hw]
    simp [PING_MESSAGE, PONG_MESSAGE]

end PingPong

/-! ## Emitted record header facts -/

theorem nlaLength_nlaEmit (I : NlaImpl α) (a : α) :
    nlaLength (nlaEmit I a) = (I.value_len a + 4) % 65536 := by
  simp [nlaLength, nlaEmit, u16le, readU16]
  omega

theorem nlaKindField_nlaEmit (I : NlaImpl α) (a : α) :
    nlaKindField (nlaEmit I a) = nlaWireKind I a % 65536 := by
  simp [nlaKindField, nlaEmit, u16le, readU16]
  omega

theorem nlaNestedFlag_nlaEmit (I : NlaImpl α) (a : α) :
    nlaNestedFlag (nlaEmit I a) =
      decide (nlaWireKind I a % 65536 / 32768 % 2 = 1) := by
  rw [nlaNestedFlag, nlaKindField_nlaEmit]

theorem nlaLength_nlaEmit_of_fit (I : NlaImpl α) (a : α)
    (h : I.value_len a + 4 < 65536) :
    nlaLength (nlaEmit I a) = I.value_len a + 4 := by
  rw [nlaLength_nlaEmit, Nat.mod_eq_of_lt h]

/-- Parsing the concatenation of well-formed records followed by any
suffix steps through all the records and continues on the suffix. -/
theorem parseNlas_emitNlas_append (I : NlaImpl α) (l : List α)
    (more : List Nat) (h : ∀ a ∈ l, WfNla I a) :
    parseNlas I (nlasEmit I l ++ more) =
      match parseNlas I more with
      | .ok r => .ok (l ++ r)
      | .err m => .err m
      | .panic => .panic := by
  induction l with
  | nil =>
    rw [nlasEmit, List.nil_append]
    cases parseNlas I more <;> simp
  | cons a r ih =>
    rw [nlasEmit, List.append_assoc, parseNlas_cons I a _ (h a (by simp)),
      ih (fun x hx => h x (by simp [hx]))]
    cases parseNlas I more <;> simp

/-! ## First-null decomposition -/

theorem nullPrefix_spec (p : List Nat) (h : 0 ∈ p) :
    (∃ r, p = nullPrefix p ++ 0 :: r) ∧ 0 ∉ nullPrefix p := by
  induction p with
  | nil => cases h
  | cons b t ih =>
    by_cases hb : b = 0
    · subst hb
      refine ⟨⟨t, ?_⟩, ?_⟩ <;> simp [nullPrefix]
    · have ht : 0 ∈ t := by
        rcases List.mem_cons.mp h with h' | h'
        · exact absurd h'.symm hb
        · exact h'
      obtain ⟨⟨r, hr⟩, hn⟩ := ih ht
      refine ⟨⟨r, ?_⟩, ?_⟩
      · rw [nullPrefix, if_neg hb, List.cons_append, ← hr]
      · rw [nullPrefix, if_neg hb]
        intro hc
        rcases List.mem_cons.mp hc with h' | h'
        · exact hb h'.symm
        · exact hn h'

/-! ## Claim theorems -/

/-- C1: for every well-formed message of the three example protocols,
decoding the bytes produced by `serialize` under the message type
reported by `message_type` yields a structurally equal message. -/
theorem c1_round_trip_identity
    (m1 : TeaCoffee.BeverageMessage) (m2 : Conntrack.NetfilterMessage)
    (m3 : PingPong.PingPongMessage)
    (h1 : m1.wf = true) (h2 : m2.wf = true) (h3 : m3.wf = true) :
    TeaCoffee.BeverageMessage.deserialize m1.message_type m1.serialize =
      .ok m1 ∧
    Conntrack.NetfilterMessage.deserialize m2.message_type m2.serialize =
      .ok m2 ∧
    PingPong.PingPongMessage.deserialize m3.message_type m3.serialize =
      .ok m3 :=
  ⟨TeaCoffee.bev_roundtrip m1 h1, Conntrack.nf_roundtrip m2 h2,
   PingPong.pp_roundtrip m3 h3⟩

/-- Witness for C1 at the three messages the demo drivers build. -/
theorem c1_round_trip_identity_witness :
    TeaCoffee.tea_request.wf = true ∧
    Conntrack.conntrack_get_message.wf = true ∧
    PingPong.ping_pong_message.wf = true ∧
    (TeaCoffee.BeverageMessage.deserialize TeaCoffee.tea_request.message_type
        TeaCoffee.tea_request.serialize = .ok TeaCoffee.tea_request ∧
     Conntrack.NetfilterMessage.deserialize
        Conntrack.conntrack_get_message.message_type
        Conntrack.conntrack_get_message.serialize =
          .ok Conntrack.conntrack_get_message ∧
     PingPong.PingPongMessage.deserialize
        PingPong.ping_pong_message.message_type
        PingPong.ping_pong_message.serialize =
          .ok PingPong.ping_pong_message) :=
  ⟨by decide, by decide, by decide,
   c1_round_trip_identity TeaCoffee.tea_request
     Conntrack.conntrack_get_message PingPong.ping_pong_message
     (by decide) (by decide) (by decide)⟩

/-- C2: the claim says an out-of-enumeration family byte yields a typed
decode error and header parsing never panics; the code instead calls
`.try_into().unwrap()`, so family byte 5 makes `BvgGenMsg::parse` (and
the whole `deserialize`) panic, even though `TryFrom` itself produces
the typed error carrying the raw value. -/
theorem c2_invalid_family_panics :
    TeaCoffee.BvgGenFamily.tryFrom 5 = .error 5 ∧
    TeaCoffee.BvgGenMsg.parse [5, 0, 0, 0] = .panic ∧
    TeaCoffee.BeverageMessage.deserialize TeaCoffee.TEA_MESSAGE_TYPE
      [5, 0, 0, 0] = .panic := by
  refine ⟨rfl, rfl, rfl⟩

/-- C3: the claim says a scalar attribute of the wrong width is a decode
error and decode never panics; the ping-pong `Cookie` arm instead does
`copy_from_slice` into a `[u8; 4]`, which panics on a 2-byte value
(reachable from `deserialize` with a well-formed record of declared
length 6), while the conntrack `ProtoTuple` scalars do return errors. -/
theorem c3_wrong_width_scalar_panics :
    PingPong.PingPongAttribute.parse PingPong.PING_PONG_ATTR_COOKIE
      [170, 187] = .panic ∧
    PingPong.PingPongMessage.deserialize PingPong.PING_MESSAGE
      [6, 0, 2, 0, 170, 187, 0, 0] = .panic ∧
    Conntrack.ProtoTuple.parse Conntrack.CTA_PROTO_NUM [6, 0] =
      .err "invalid u8 payload length" := by
  refine ⟨rfl, rfl, rfl⟩

/-- C4: `buffer_len` of an attribute tree equals the exact byte count of
`emit`, equals the sum of `align4(4 + value_len)` over the records, and
every emitted record's declared length field is its unpadded value
length plus 4. -/
theorem c4_length_accounting
    (t1 : List TeaCoffee.BeverageAttribute)
    (t2 : List Conntrack.ConntrackAttribute)
    (h1 : t1.all TeaCoffee.BeverageAttribute.wf = true)
    (h2 : t2.all Conntrack.ConntrackAttribute.wf = true) :
    (nlasEmit TeaCoffee.BevNla t1).length =
      nlasBufferLen TeaCoffee.BevNla t1 ∧
    (nlasEmit Conntrack.CtNla t2).length =
      nlasBufferLen Conntrack.CtNla t2 ∧
    nlasBufferLen TeaCoffee.BevNla t1 =
      (t1.map (fun a => align4 (4 + TeaCoffee.BevNla.value_len a))).sum ∧
    nlasBufferLen Conntrack.CtNla t2 =
      (t2.map (fun a => align4 (4 + Conntrack.CtNla.value_len a))).sum ∧
    (∀ a ∈ t1, nlaLength (nlaEmit TeaCoffee.BevNla a) =
      TeaCoffee.BevNla.value_len a + 4) ∧
    (∀ a ∈ t2, nlaLength (nlaEmit Conntrack.CtNla a) =
      Conntrack.CtNla.value_len a + 4) := by
  simp only [List.all_eq_true] at h1 h2
  have e1 : (fun a => align4 (4 + TeaCoffee.BevNla.value_len a)) =
      (fun a => align4 (TeaCoffee.BevNla.value_len a + 4)) := by
    funext a; rw [Nat.add_comm]
  have e2 : (fun a => align4 (4 + Conntrack.CtNla.value_len a)) =
      (fun a => align4 (Conntrack.CtNla.value_len a + 4)) := by
    funext a; rw [Nat.add_comm]
  refine ⟨nlasEmit_length _ _
      (fun a ha => (TeaCoffee.wfNla_bev a (h1 a ha)).1),
    nlasEmit_length _ _ (fun a ha => (Conntrack.wfNla_ct a (h2 a ha)).1),
    by rw [e1, ← nlasBufferLen_eq_sum],
    by rw [e2, ← nlasBufferLen_eq_sum],
    fun a ha => nlaLength_nlaEmit_of_fit _ _
      (TeaCoffee.wfNla_bev a (h1 a ha)).2.1,
    fun a ha => nlaLength_nlaEmit_of_fit _ _
      (Conntrack.wfNla_ct a (h2 a ha)).2.1⟩

/-- Witness for C4 at the attribute trees the demo drivers build. -/
theorem c4_length_accounting_witness :
    ([TeaCoffee.BeverageAttribute.Hotness 95,
      .PersonName [65, 108, 105, 99, 101],
      .CaffeineContent 21932130].all TeaCoffee.BeverageAttribute.wf = true) ∧
    ([Conntrack.ConntrackAttribute.CtaTupleOrig
        [.Ip [.SourceAddress (.v4 [10, 0, 42, 55]),
              .DestinationAddress (.v4 [172, 64, 148, 235])],
         .Proto [.Protocol 6, .SourcePort 48154,
           .DestinationPort 443]]].all Conntrack.ConntrackAttribute.wf
      = true) ∧
    ((nlasEmit TeaCoffee.BevNla [TeaCoffee.BeverageAttribute.Hotness 95,
        .PersonName [65, 108, 105, 99, 101],
        .CaffeineContent 21932130]).length =
      nlasBufferLen TeaCoffee.BevNla [TeaCoffee.BeverageAttribute.Hotness 95,
        .PersonName [65, 108, 105, 99, 101], .CaffeineContent 21932130] ∧
     (nlasEmit Conntrack.CtNla [Conntrack.ConntrackAttribute.CtaTupleOrig
        [.Ip [.SourceAddress (.v4 [10, 0, 42, 55]),
              .DestinationAddress (.v4 [172, 64, 148, 235])],
         .Proto [.Protocol 6, .SourcePort 48154,
           .DestinationPort 443]]]).length =
      nlasBufferLen Conntrack.CtNla [Conntrack.ConntrackAttribute.CtaTupleOrig
        [.Ip [.SourceAddress (.v4 [10, 0, 42, 55]),
              .DestinationAddress (.v4 [172, 64, 148, 235])],
         .Proto [.Protocol 6, .SourcePort 48154,
           .DestinationPort 443]]] ∧
     nlasBufferLen TeaCoffee.BevNla [TeaCoffee.BeverageAttribute.Hotness 95,
        .PersonName [65, 108, 105, 99, 101], .CaffeineContent 21932130] =
      ([TeaCoffee.BeverageAttribute.Hotness 95,
        .PersonName [65, 108, 105, 99, 101],
        .CaffeineContent 21932130].map
          (fun a => align4 (4 + TeaCoffee.BevNla.value_len a))).sum ∧
     nlasBufferLen Conntrack.CtNla [Conntrack.ConntrackAttribute.CtaTupleOrig
        [.Ip [.SourceAddress (.v4 [10, 0, 42, 55]),
              .DestinationAddress (.v4 [172, 64, 148, 235])],
         .Proto [.Protocol 6, .SourcePort 48154,
           .DestinationPort 443]]] =
      ([Conntrack.ConntrackAttribute.CtaTupleOrig
        [.Ip [.SourceAddress (.v4 [10, 0, 42, 55]),
              .DestinationAddress (.v4 [172, 64, 148, 235])],
         .Proto [.Protocol 6, .SourcePort 48154,
           .DestinationPort 443]]].map
          (fun a => align4 (4 + Conntrack.CtNla.value_len a))).sum ∧
     (∀ a ∈ [TeaCoffee.BeverageAttribute.Hotness 95,
        .PersonName [65, 108, 105, 99, 101], .CaffeineContent 21932130],
        nlaLength (nlaEmit TeaCoffee.BevNla a) =
          TeaCoffee.BevNla.value_len a + 4) ∧
     (∀ a ∈ [Conntrack.ConntrackAttribute.CtaTupleOrig
        [.Ip [.SourceAddress (.v4 [10, 0, 42, 55]),
              .DestinationAddress (.v4 [172, 64, 148, 235])],
         .Proto [.Protocol 6, .SourcePort 48154,
           .DestinationPort 443]]],
        nlaLength (nlaEmit Conntrack.CtNla a) =
          Conntrack.CtNla.value_len a + 4)) :=
  ⟨by decide, by decide,
   c4_length_accounting _ _ (by decide) (by decide)⟩

/-- C5: a record whose kind is outside the level's closed dispatch table
makes the whole attribute-list decode return an error (no skipped
attribute, no partial list), for both the beverage level (table 1..3)
and the conntrack top level (table consisting of 1 alone). -/
theorem c5_unknown_kind_aborts
    (good1 : List TeaCoffee.BeverageAttribute)
    (good2 : List Conntrack.ConntrackAttribute)
    (k : Nat) (v rest : List Nat)
    (hg1 : good1.all TeaCoffee.BeverageAttribute.wf = true)
    (hg2 : good2.all Conntrack.ConntrackAttribute.wf = true)
    (hk14 : k < 16384) (hk1 : k ≠ 1) (hk2 : k ≠ 2) (hk3 : k ≠ 3)
    (hv : v.length + 4 < 65536) :
    (parseNlas TeaCoffee.BevNla
      (nlasEmit TeaCoffee.BevNla good1 ++ (rawNla k v ++ rest))).isErr =
      true ∧
    (parseNlas Conntrack.CtNla
      (nlasEmit Conntrack.CtNla good2 ++ (rawNla k v ++ rest))).isErr =
      true := by
  simp only [List.all_eq_true] at hg1 hg2
  have hkmod : k % 16384 = k := Nat.mod_eq_of_lt hk14
  constructor
  · rw [parseNlas_emitNlas_append _ _ _
      (fun a ha => TeaCoffee.wfNla_bev a (hg1 a ha))]
    rw [parseNlas_rawNla _ k v rest (by omega) hv, hkmod]
    have hunk : TeaCoffee.BevNla.parse k v =
        .err "Unknown NLA kind for BeverageAttribute" := by
      show TeaCoffee.BeverageAttribute.parse k v = _
      unfold TeaCoffee.BeverageAttribute.parse
      rw [if_neg (show ¬ k = TeaCoffee.BVG_ATTR_CAFFEINE_CONTENT from hk1),
        if_neg (show ¬ k = TeaCoffee.BVG_ATTR_HOTNESS from hk2),
        if_neg (show ¬ k = TeaCoffee.BVG_ATTR_PERSON_NAME from hk3)]
    rw [hunk]
    rfl
  · rw [parseNlas_emitNlas_append _ _ _
      (fun a ha => Conntrack.wfNla_ct a (hg2 a ha))]
    rw [parseNlas_rawNla _ k v rest (by omega) hv, hkmod]
    have hunk : Conntrack.CtNla.parse k v =
        .err "invalid NLA kind" := by
      show Conntrack.ConntrackAttribute.parse k v = _
      unfold Conntrack.ConntrackAttribute.parse
      rw [if_neg (show ¬ k = Conntrack.CTA_TUPLE_ORIG from hk1)]
    rw [hunk]
    rfl

/-- Witness for C5: one good beverage attribute followed by a record of
unknown kind 9 aborts both list decodes. -/
theorem c5_unknown_kind_aborts_witness :
    ([TeaCoffee.BeverageAttribute.Hotness 95].all
      TeaCoffee.BeverageAttribute.wf = true) ∧
    (([] : List Conntrack.ConntrackAttribute).all
      Conntrack.ConntrackAttribute.wf = true) ∧
    (9 : Nat) < 16384 ∧ (9 : Nat) ≠ 1 ∧ (9 : Nat) ≠ 2 ∧ (9 : Nat) ≠ 3 ∧
    ([1, 2] : List Nat).length + 4 < 65536 ∧
    ((parseNlas TeaCoffee.BevNla
      (nlasEmit TeaCoffee.BevNla [TeaCoffee.BeverageAttribute.Hotness 95] ++
        (rawNla 9 [1, 2] ++ []))).isErr = true ∧
     (parseNlas Conntrack.CtNla
      (nlasEmit Conntrack.CtNla ([] : List Conntrack.ConntrackAttribute) ++
        (rawNla 9 [1, 2] ++ []))).isErr = true) :=
  ⟨by decide, by decide, by decide, by decide, by decide, by decide,
   by decide,
   c5_unknown_kind_aborts [TeaCoffee.BeverageAttribute.Hotness 95] [] 9
     [1, 2] [] (by decide) (by decide) (by decide) (by decide) (by decide)
     (by decide) (by decide)⟩

/-- C6: decoding a string value with a null byte yields exactly the bytes
strictly before the first null, a value with no null decodes to the
whole slice without error, and both string encoders append exactly one
null terminator. -/
theorem c6_string_attribute_codec (p q s : List Nat)
    (hp : 0 ∈ p) (hpu : validUtf8 (nullPrefix p) = true)
    (hq : 0 ∉ q) (hqu : validUtf8 q = true) :
    (parse_string p = .ok (nullPrefix p) ∧
     (∃ r, p = nullPrefix p ++ 0 :: r) ∧ 0 ∉ nullPrefix p) ∧
    parse_string q = .ok q ∧
    TeaCoffee.BeverageAttribute.emit_value (.PersonName s) = s ++ [0] ∧
    PingPong.PingPongAttribute.emit_value (.Message s) = s ++ [0] := by
  obtain ⟨hdec, hnn⟩ := nullPrefix_spec p hp
  refine ⟨⟨?_, hdec, hnn⟩, ?_, rfl, rfl⟩
  · unfold parse_string
    rw [if_pos hpu]
  · have hq' : nullPrefix q = q := nullPrefix_of_not_mem q hq
    unfold parse_string
    rw [hq', if_pos hqu]

/-- Witness for C6 at a value with an interior null and one without. -/
theorem c6_string_attribute_codec_witness :
    (0 ∈ ([65, 0, 66] : List Nat)) ∧
    validUtf8 (nullPrefix [65, 0, 66]) = true ∧
    (0 ∉ ([65] : List Nat)) ∧ validUtf8 [65] = true ∧
    ((parse_string [65, 0, 66] = .ok (nullPrefix [65, 0, 66]) ∧
      (∃ r, ([65, 0, 66] : List Nat) = nullPrefix [65, 0, 66] ++ 0 :: r) ∧
      0 ∉ nullPrefix [65, 0, 66]) ∧
     parse_string [65] = .ok [65] ∧
     TeaCoffee.BeverageAttribute.emit_value (.PersonName [67]) =
       [67] ++ [0] ∧
     PingPong.PingPongAttribute.emit_value (.Message [67]) =
       [67] ++ [0]) :=
  ⟨by decide, by decide, by decide, by decide,
   c6_string_attribute_codec [65, 0, 66] [65] [67] (by decide) (by decide)
     (by decide) (by decide)⟩

/-- C7: `is_nested` is true exactly for the container variants
(`CtaTupleOrig`, `Tuple::Ip`, `Tuple::Proto`) and false for every raw
variant, and the emitted wire kind's top bit reflects it exactly. -/
theorem c7_nested_bit_iff
    (ca : Conntrack.ConntrackAttribute) (t : Conntrack.Tuple)
    (ip : Conntrack.IPTuple) (pt : Conntrack.ProtoTuple)
    (ba : TeaCoffee.BeverageAttribute) (pa : PingPong.PingPongAttribute) :
    Conntrack.ConntrackAttribute.is_nested ca = true ∧
    Conntrack.Tuple.is_nested t = true ∧
    Conntrack.IPNla.is_nested ip = false ∧
    Conntrack.ProtoNla.is_nested pt = false ∧
    TeaCoffee.BevNla.is_nested ba = false ∧
    PingPong.PPNla.is_nested pa = false ∧
    nlaNestedFlag (nlaEmit Conntrack.CtNla ca) = true ∧
    nlaNestedFlag (nlaEmit Conntrack.TupleNla t) = true ∧
    nlaNestedFlag (nlaEmit Conntrack.IPNla ip) = false ∧
    nlaNestedFlag (nlaEmit Conntrack.ProtoNla pt) = false ∧
    nlaNestedFlag (nlaEmit TeaCoffee.BevNla ba) = false ∧
    nlaNestedFlag (nlaEmit PingPong.PPNla pa) = false := by
  refine ⟨?_, ?_, rfl, rfl, rfl, rfl, ?_, ?_, ?_, ?_, ?_, ?_⟩
  · cases ca
    rfl
  · cases t <;> rfl
  · cases ca with
    | CtaTupleOrig l =>
      rw [nlaNestedFlag_nlaEmit]
      show decide ((1 ||| 32768 : Nat) % 65536 / 32768 % 2 = 1) = true
      decide
  · cases t with
    | Ip l =>
      rw [nlaNestedFlag_nlaEmit]
      show decide ((1 ||| 32768 : Nat) % 65536 / 32768 % 2 = 1) = true
      decide
    | Proto l =>
      rw [nlaNestedFlag_nlaEmit]
      show decide ((2 ||| 32768 : Nat) % 65536 / 32768 % 2 = 1) = true
      decide
  · cases ip with
    | SourceAddress addr =>
      cases addr with
      | v4 o =>
        rw [nlaNestedFlag_nlaEmit]
        show decide ((1 : Nat) % 65536 / 32768 % 2 = 1) = false
        decide
      | v6 o =>
        rw [nlaNestedFlag_nlaEmit]
        show decide ((3 : Nat) % 65536 / 32768 % 2 = 1) = false
        decide
    | DestinationAddress addr =>
      cases addr with
      | v4 o =>
        rw [nlaNestedFlag_nlaEmit]
        show decide ((2 : Nat) % 65536 / 32768 % 2 = 1) = false
        decide
      | v6 o =>
        rw [nlaNestedFlag_nlaEmit]
        show decide ((4 : Nat) % 65536 / 32768 % 2 = 1) = false
        decide
  · cases pt with
    | Protocol v =>
      rw [nlaNestedFlag_nlaEmit]
      show decide ((1 : Nat) % 65536 / 32768 % 2 = 1) = false
      decide
    | SourcePort v =>
      rw [nlaNestedFlag_nlaEmit]
      show decide ((2 : Nat) % 65536 / 32768 % 2 = 1) = false
      decide
    | DestinationPort v =>
      rw [nlaNestedFlag_nlaEmit]
      show decide ((3 : Nat) % 65536 / 32768 % 2 = 1) = false
      decide
  · cases ba with
    | CaffeineContent v =>
      rw [nlaNestedFlag_nlaEmit]
      show decide ((1 : Nat) % 65536 / 32768 % 2 = 1) = false
      decide
    | Hotness v =>
      rw [nlaNestedFlag_nlaEmit]
      show decide ((2 : Nat) % 65536 / 32768 % 2 = 1) = false
      decide
    | PersonName v =>
      rw [nlaNestedFlag_nlaEmit]
      show decide ((3 : Nat) % 65536 / 32768 % 2 = 1) = false
      decide
  · cases pa with
    | Message v =>
      rw [nlaNestedFlag_nlaEmit]
      show decide ((1 : Nat) % 65536 / 32768 % 2 = 1) = false
      decide
    | Cookie v =>
      rw [nlaNestedFlag_nlaEmit]
      show decide ((2 : Nat) % 65536 / 32768 % 2 = 1) = false
      decide

/-- C8: the "Alice" string attribute has value length 6 (5 content bytes
plus the null terminator), occupies 4 + 6 = 10 record bytes before
padding, and its full aligned record is 12 bytes. -/
theorem c8_alice_string_lengths :
    TeaCoffee.BeverageAttribute.value_len
      (.PersonName [65, 108, 105, 99, 101]) = 6 ∧
    TeaCoffee.BeverageAttribute.value_len
      (.PersonName [65, 108, 105, 99, 101]) + 4 = 10 ∧
    nlaBufferLen TeaCoffee.BevNla (.PersonName [65, 108, 105, 99, 101]) =
      12 ∧
    (nlaEmit TeaCoffee.BevNla (.PersonName [65, 108, 105, 99, 101])).length
      = 12 := by
  refine ⟨rfl, rfl, rfl, rfl⟩

/-- C9: `PingPongMessage::deserialize` treats the whole payload as a
single record: it parses exactly one attribute from the start and
ignores any bytes (including further well-formed records) after the
first record's declared extent, and `serialize` writes exactly the one
attribute record with no protocol header before it. -/
theorem c9_pingpong_single_attribute (a : PingPong.PingPongAttribute)
    (extra : List Nat) (ha : a.wf = true) :
    PingPong.PingPongMessage.deserialize PingPong.PING_MESSAGE
      (nlaEmit PingPong.PPNla a ++ extra) = .ok (.Ping a) ∧
    PingPong.PingPongMessage.deserialize PingPong.PONG_MESSAGE
      (nlaEmit PingPong.PPNla a ++ extra) = .ok (.Pong a) ∧
    PingPong.PingPongMessage.serialize (.Ping a) =
      nlaEmit PingPong.PPNla a ∧
    PingPong.PingPongMessage.serialize (.Pong a) =
      nlaEmit PingPong.PPNla a := by
  have hw := PingPong.wfNla_pp a ha
  refine ⟨?_, ?_, rfl, rfl⟩
  · rw [PingPong.pp_deserialize_emit a extra hw]
    simp [PingPong.PING_MESSAGE]
  · rw [PingPong.pp_deserialize_emit a extra hw]
    simp [PingPong.PING_MESSAGE, PingPong.PONG_MESSAGE]

/-- Witness for C9: a cookie attribute followed by a second well-formed
record that deserialization silently ignores. -/
theorem c9_pingpong_single_attribute_witness :
    (PingPong.PingPongAttribute.Cookie 129).wf = true ∧
    (PingPong.PingPongMessage.deserialize PingPong.PING_MESSAGE
      (nlaEmit PingPong.PPNla (.Cookie 129) ++ [8, 0, 2, 0, 7, 0, 0, 0]) =
        .ok (.Ping (.Cookie 129)) ∧
     PingPong.PingPongMessage.deserialize PingPong.PONG_MESSAGE
      (nlaEmit PingPong.PPNla (.Cookie 129) ++ [8, 0, 2, 0, 7, 0, 0, 0]) =
        .ok (.Pong (.Cookie 129)) ∧
     PingPong.PingPongMessage.serialize (.Ping (.Cookie 129)) =
       nlaEmit PingPong.PPNla (.Cookie 129) ∧
     PingPong.PingPongMessage.serialize (.Pong (.Cookie 129)) =
       nlaEmit PingPong.PPNla (.Cookie 129)) :=
  ⟨by decide,
   c9_pingpong_single_attribute (.Cookie 129) [8, 0, 2, 0, 7, 0, 0, 0]
     (by decide)⟩

/-- C10: encoding never checks strings for interior nulls: for a string
with an embedded null byte, `emit_value` writes the full string plus a
terminator, and decoding the emitted value truncates at the first null,
returning a different string with no error. -/
theorem c10_embedded_null_misroundtrip (pre post : List Nat)
    (h0 : 0 ∉ pre) (hu : validUtf8 pre = true) :
    TeaCoffee.BeverageAttribute.emit_value
      (.PersonName (pre ++ 0 :: post)) = (pre ++ 0 :: post) ++ [0] ∧
    PingPong.PingPongAttribute.emit_value
      (.Message (pre ++ 0 :: post)) = (pre ++ 0 :: post) ++ [0] ∧
    TeaCoffee.BeverageAttribute.parse TeaCoffee.BVG_ATTR_PERSON_NAME
      (TeaCoffee.BeverageAttribute.emit_value
        (.PersonName (pre ++ 0 :: post))) = .ok (.PersonName pre) ∧
    PingPong.PingPongAttribute.parse PingPong.PING_PONG_ATTR_MSG
      (PingPong.PingPongAttribute.emit_value
        (.Message (pre ++ 0 :: post))) = .ok (.Message pre) ∧
    pre ≠ pre ++ 0 :: post := by
  have hnp : nullPrefix (pre ++ 0 :: (post ++ [0])) = pre :=
    nullPrefix_append_null pre (post ++ [0]) h0
  refine ⟨rfl, rfl, ?_, ?_, ?_⟩
  · show TeaCoffee.BeverageAttribute.parse 3
      ((pre ++ 0 :: post) ++ [0]) = .ok (.PersonName pre)
    simp [TeaCoffee.BeverageAttribute.parse, TeaCoffee.BVG_ATTR_CAFFEINE_CONTENT,
      TeaCoffee.BVG_ATTR_HOTNESS, TeaCoffee.BVG_ATTR_PERSON_NAME,
      parse_string, hnp, hu]
  · show PingPong.PingPongAttribute.parse 1
      ((pre ++ 0 :: post) ++ [0]) = .ok (.Message pre)
    simp [PingPong.PingPongAttribute.parse, PingPong.PING_PONG_ATTR_MSG,
      hnp, hu]
  · intro heq
    have := congrArg List.length heq
    simp at this

/-- Witness for C10 at the string bytes `[65, 0, 66]`. -/
theorem c10_embedded_null_misroundtrip_witness :
    (0 ∉ ([65] : List Nat)) ∧ validUtf8 [65] = true ∧
    (TeaCoffee.BeverageAttribute.emit_value
      (.PersonName ([65] ++ 0 :: [66])) = ([65] ++ 0 :: [66]) ++ [0] ∧
     PingPong.PingPongAttribute.emit_value
      (.Message ([65] ++ 0 :: [66])) = ([65] ++ 0 :: [66]) ++ [0] ∧
     TeaCoffee.BeverageAttribute.parse TeaCoffee.BVG_ATTR_PERSON_NAME
      (TeaCoffee.BeverageAttribute.emit_value
        (.PersonName ([65] ++ 0 :: [66]))) = .ok (.PersonName [65]) ∧
     PingPong.PingPongAttribute.parse PingPong.PING_PONG_ATTR_MSG
      (PingPong.PingPongAttribute.emit_value
        (.Message ([65] ++ 0 :: [66]))) = .ok (.Message [65]) ∧
     ([65] : List Nat) ≠ [65] ++ 0 :: [66]) :=
  ⟨by decide, by decide,
   c10_embedded_null_misroundtrip [65] [66] (by decide) (by decide)⟩
